import Mathlib

/-!
Shallow embedding of the conversation checkpoint and streaming core of the
AI-FIX repository (TypeScript), covering:

* `ChatBot.chat` (src/heart/chatbot.ts, chain path) and
  `MemoryChain.stream` / `MemoryChain.invoke` / `MemoryChain.saveResponse`
  (the MemoryChain source files): history reconstruction, the streamed turn
  with its try/finally persistence block, and the checkpoint write;
* `Agent.invoke` / `Agent.stream` (src/heart/agent.ts): the schema flag and
  the word-by-word fragment decomposition of a response.

Conventions of the embedding:

* JavaScript strings are Lean `String`s; `Array.prototype.join(sep)` is
  embedded as `jsJoin`, `String.prototype.split(" ")` as `jsSplitSpace`
  (single-character separator split at the `Char` level).
* The checkpoint store is modelled per thread: the state of one thread is an
  `Option Checkpoint` (`none` = no checkpoint stored yet).  `memory.get`
  reads that state, `memory.put` replaces it; every `put` invocation is also
  recorded as a `PutCall` so that the metadata passed along can be examined.
* `Date.now()` and `new Date().toISOString()` are passed in as the
  parameters `nowMs` / `nowIso`.
* The generation collaborator (the inner `Chain`, the react agent and the
  `structure` helper) is external: its fragment sequence, its one-shot
  response and the schema-structuring function are parameters.
* The exit mode of an async-generator streaming region is a `StreamExit`:
  the fragment sequence either finishes (`complete`), throws after `k`
  fragments were delivered (`failed k`), or the consumer stops after `k`
  fragments (`abandoned k`).  JavaScript guarantees that a `finally` block
  around the loop runs exactly once on each of these exits, before a
  mid-stream error is re-raised to the caller; the embedding records the
  resulting control flow as an explicit event trace (`TurnEv`).
-/

/-- Embedding of JavaScript `Array.prototype.join(sep)`. -/
def jsJoin (sep : String) : List String → String
  | [] => ""
  | [x] => x
  | x :: y :: rest => x ++ sep ++ jsJoin sep (y :: rest)

/-- Splitting a character list at every occurrence of the separator `c`;
the `List Char` level of JavaScript `String.prototype.split` with a
single-character separator (`"".split(" ") = [""]`, separators are not
kept, adjacent separators produce empty pieces). -/
def splitCharAux (c : Char) : List Char → List (List Char)
  | [] => [[]]
  | x :: xs =>
    if x = c then [] :: splitCharAux c xs
    else
      match splitCharAux c xs with
      | [] => [[x]]
      | y :: ys => (x :: y) :: ys

/-- Embedding of JavaScript `s.split(" ")`. -/
def jsSplitSpace (s : String) : List String :=
  (splitCharAux ' ' s.data).map String.mk

/-- Roles a stored message can carry.  The source classifies messages by
`instanceof HumanMessage` / `instanceof AIMessage` / anything else. -/
inductive Role where
  | human
  | ai
  | system
deriving DecidableEq, Repr

-- Minimal JSON value model for non-string message contents; mutual with
-- its list/field spines so that `stringifyJs` is structural.
mutual
/-- JSON value model for non-string message contents. -/
inductive Js where
  | str (s : String)
  | num (n : Int)
  | boolean (b : Bool)
  | null
  | arr (elems : JsList)
  | obj (fields : JsFields)
deriving DecidableEq, Repr

inductive JsList where
  | nil
  | cons (hd : Js) (tl : JsList)
deriving DecidableEq, Repr

inductive JsFields where
  | nil
  | cons (key : String) (val : Js) (tl : JsFields)
deriving DecidableEq, Repr
end

/-- Escaping of quote and backslash inside a serialized JSON string. -/
def jsonEscape (s : String) : String :=
  s.data.foldr
    (fun c acc =>
      (if c = '"' ∨ c = '\\' then "\\" ++ String.singleton c
       else String.singleton c) ++ acc)
    ""

-- Embedding of `JSON.stringify` on the JSON value model.
mutual
/-- Serialization of a JSON value, embedding `JSON.stringify`. -/
def stringifyJs : Js → String
  | .str s => "\"" ++ jsonEscape s ++ "\""
  | .num n => toString n
  | .boolean b => if b then "true" else "false"
  | .null => "null"
  | .arr elems => "[" ++ stringifyJsList elems ++ "]"
  | .obj fields => "\x7b" ++ stringifyJsFields fields ++ "\x7d"

def stringifyJsList : JsList → String
  | .nil => ""
  | .cons hd .nil => stringifyJs hd
  | .cons hd (.cons hd2 tl) => stringifyJs hd ++ "," ++ stringifyJsList (.cons hd2 tl)

def stringifyJsFields : JsFields → String
  | .nil => ""
  | .cons key val .nil => "\"" ++ jsonEscape key ++ "\":" ++ stringifyJs val
  | .cons key val (.cons k2 v2 tl) =>
      "\"" ++ jsonEscape key ++ "\":" ++ stringifyJs val ++ ","
        ++ stringifyJsFields (.cons k2 v2 tl)
end

/-- Content of a message: either a plain JavaScript string
(`typeof content === 'string'`) or some other JSON-like value. -/
inductive MsgContent where
  | str (s : String)
  | complex (j : Js)
deriving DecidableEq, Repr

/-- A stored conversation message (`BaseMessage` with its role tag). -/
structure Message where
  role : Role
  content : MsgContent
deriving DecidableEq, Repr

/-- Constructor embedding `new HumanMessage(text)`. -/
def HumanMessage (s : String) : Message := ⟨Role.human, MsgContent.str s⟩

/-- Constructor embedding `new AIMessage(text)`. -/
def AIMessage (s : String) : Message := ⟨Role.ai, MsgContent.str s⟩

/-- The text a message content is rendered as:
`typeof msg.content === 'string' ? msg.content : JSON.stringify(msg.content)`. -/
def contentText : MsgContent → String
  | .str s => s
  | .complex j => stringifyJs j

/-- Rendering of one message inside the history transcript, as in the
`instanceof` cascade of `messagesToHistoryText` / `ChatBot.chat`. -/
def renderMessage (msg : Message) : String :=
  match msg.role with
  | .human => "User: " ++ contentText msg.content
  | .ai => "Assistant: " ++ contentText msg.content
  | .system => "System: " ++ contentText msg.content

/-- Embedding of `MemoryChain.messagesToHistoryText` (the same map/join is
inlined in `ChatBot.chat` and in `MemoryChain` of both variants):
render every message and join with `'\n\n'`. -/
def messagesToHistoryText (messages : List Message) : String :=
  jsJoin "\n\n" (messages.map renderMessage)

/-- The checkpoint record the core writes (the fields of the object built
in the `finally` block of `ChatBot.chat` / in `saveResponse`). -/
structure Checkpoint where
  channel_values_messages : List Message
  channel_versions_messages : Nat
  versions_seen : List (String × Nat)
  v : Nat
  id : String
  ts : String
deriving DecidableEq, Repr

/-- Metadata handed to `memory.put` (`{ source: "input", step, parents: {} }`). -/
structure CheckpointMetadata where
  source : String
  step : Nat
  parents : List (String × String)
deriving DecidableEq, Repr

/-- Record of one `memory.put(config, checkpoint, metadata, { messages: n })`
invocation. -/
structure PutCall where
  checkpoint : Checkpoint
  metadata : CheckpointMetadata
  versionHint : Nat
deriving DecidableEq, Repr

/-- History reconstruction: `checkpoint?.channel_values?.messages ?? []`
(the guarded read at the start of every turn). -/
def historyOf : Option Checkpoint → List Message
  | none => []
  | some cp => cp.channel_values_messages

/-- The version the code reads from the store: `checkpoint?.v || 0`
(absence of a checkpoint is version 0). -/
def storeVersion : Option Checkpoint → Nat
  | none => 0
  | some cp => cp.v

/-- The new checkpoint value built from the prior one (the object literal in
the `finally` block / `saveResponse`): version `(checkpoint?.v || 0) + 1`,
id and timestamp carried from the prior checkpoint when present (JavaScript
`||`, so an empty stored string would also be replaced), otherwise minted
from the thread id and the clock. -/
def buildNewCheckpoint (checkpoint : Option Checkpoint) (thread_id : String)
    (newMessages : List Message) (nowMs : Nat) (nowIso : String) : Checkpoint :=
  { channel_values_messages := newMessages
    channel_versions_messages := newMessages.length
    versions_seen := match checkpoint with
      | some c => c.versions_seen
      | none => []
    v := (match checkpoint with | some c => c.v | none => 0) + 1
    id := match checkpoint with
      | some c => if c.id = "" then thread_id ++ "-" ++ toString nowMs else c.id
      | none => thread_id ++ "-" ++ toString nowMs
    ts := match checkpoint with
      | some c => if c.ts = "" then nowIso else c.ts
      | none => nowIso }

/-- The metadata built for the write:
`{ source: "input", step: (checkpoint?.v || 0) + 1, parents: {} }`. -/
def buildMetadata (checkpoint : Option Checkpoint) : CheckpointMetadata :=
  { source := "input"
    step := (match checkpoint with | some c => c.v | none => 0) + 1
    parents := [] }

/-- How the streaming region of a turn is exited: the fragment sequence
completes, the generation collaborator throws after `k` fragments were
delivered, or the consumer stops iterating after `k` fragments. -/
inductive StreamExit where
  | complete
  | failed (k : Nat)
  | abandoned (k : Nat)
deriving DecidableEq, Repr

/-- The fragments actually delivered to the caller before the streaming
region is exited. -/
def deliveredChunks (frags : List String) : StreamExit → List String
  | .complete => frags
  | .failed k => frags.take k
  | .abandoned k => frags.take k

/-- Events of one streamed turn, in chronological order: a fragment is
yielded to the caller, the finally block (persistence step) runs with the
accumulated text, a `memory.put` happens, or a generation error is
re-raised to the caller. -/
inductive TurnEv where
  | yieldEv (s : String)
  | persistEv (s : String)
  | putEv (p : PutCall)
  | raiseEv
deriving DecidableEq, Repr

/-- Result of one streamed turn. -/
structure TurnResult where
  /-- Fragments forwarded to the caller, in order. -/
  yielded : List String
  /-- The `message` input handed to `chain.stream`. -/
  genInput : String
  /-- The thread's store state after the turn. -/
  store : Option Checkpoint
  /-- The `memory.put` calls made during the turn. -/
  puts : List PutCall
  /-- Chronological event trace of the turn. -/
  events : List TurnEv
  /-- Whether a generation error escaped to the caller. -/
  raised : Bool
  /-- The generator's return value on normal completion. -/
  returned : Option String
deriving DecidableEq, Repr

/-- The `finally` block of `ChatBot.chat` (chain path): when the
accumulated response text is non-empty, build the new message list and
checkpoint and write it via `memory.put`; otherwise do nothing.
Returns the thread's new store state and the put call, if any. -/
def chatPersistStep (checkpoint : Option Checkpoint) (thread_id : String)
    (allMessages : List Message) (responseText : String)
    (nowMs : Nat) (nowIso : String) : Option Checkpoint × Option PutCall :=
  if responseText.length > 0 then
    let aiMessage := AIMessage responseText
    let newMessages := allMessages ++ [aiMessage]
    let newCheckpoint := buildNewCheckpoint checkpoint thread_id newMessages nowMs nowIso
    let metadata := buildMetadata checkpoint
    (some newCheckpoint, some ⟨newCheckpoint, metadata, newMessages.length⟩)
  else (checkpoint, none)

/-- The trailing event of a streamed turn: the generation error re-raised
to the caller after the finally block, present exactly on a mid-stream
failure. -/
def raiseTail : StreamExit → List TurnEv
  | .failed _ => [TurnEv.raiseEv]
  | _ => []

/-- Embedding of one streamed turn of `ChatBot.chat` (chain path); the same
control flow is `MemoryChain.stream`.  Given the thread's stored checkpoint,
the user message, the fragment sequence the chain's stream would produce and
the exit mode of the streaming region:

* the prior history is read from the checkpoint and the user message
  appended (`allMessages`), the transcript is rendered over `allMessages`
  and the generation input assembled;
* each fragment delivered before the exit is pushed to `chunks` and yielded;
* the `finally` block always runs exactly once with `chunks.join('')`,
  writing a new checkpoint iff that text is non-empty;
* after the finally block, a mid-stream generation error is re-raised,
  while a completed turn returns the accumulated text. -/
def chatChainTurn (store0 : Option Checkpoint) (thread_id message : String)
    (frags : List String) (ex : StreamExit)
    (nowMs : Nat) (nowIso : String) : TurnResult :=
  let checkpoint := store0
  let historyMessages := historyOf checkpoint
  let userMessage := HumanMessage message
  let allMessages := historyMessages ++ [userMessage]
  let historyText := messagesToHistoryText allMessages
  let genInput := historyText ++ "\n\nUser: " ++ message
  let chunks := deliveredChunks frags ex
  let responseText := jsJoin "" chunks
  let sr := chatPersistStep checkpoint thread_id allMessages responseText nowMs nowIso
  { yielded := chunks
    genInput := genInput
    store := sr.1
    puts := sr.2.toList
    events := chunks.map TurnEv.yieldEv
      ++ TurnEv.persistEv responseText
        :: (sr.2.toList.map TurnEv.putEv ++ raiseTail ex)
    raised := match ex with | .failed _ => true | _ => false
    returned := match ex with | .complete => some responseText | _ => none }

/-- Embedding of `MemoryChain.saveResponse` (variant with the guard
`if (!responseText || responseText.length === 0) return`): append one user
and one assistant message to the given history and write the new
checkpoint, or do nothing when the response text is empty. -/
def saveResponse (store : Option Checkpoint) (thread_id userInputText responseText : String)
    (historyMessages : List Message) (nowMs : Nat) (nowIso : String) :
    Option Checkpoint × Option PutCall :=
  if responseText.length = 0 then (store, none)
  else
    let checkpoint := store
    let userMessage := HumanMessage userInputText
    let aiMessage := AIMessage responseText
    let newMessages := historyMessages ++ [userMessage, aiMessage]
    let newCheckpoint := buildNewCheckpoint checkpoint thread_id newMessages nowMs nowIso
    let metadata := buildMetadata checkpoint
    (some newCheckpoint, some ⟨newCheckpoint, metadata, newMessages.length⟩)

/-- A sequence of streamed turns on one thread with serialized single-writer
access, each running to normal completion; the store state is threaded from
turn to turn.  Each list entry is the user message together with the
fragment sequence generation produces for it. -/
def runTurns (thread_id : String) (nowMs : Nat) (nowIso : String)
    (store : Option Checkpoint) : List (String × List String) → Option Checkpoint
  | [] => store
  | (msg, frags) :: rest =>
      runTurns thread_id nowMs nowIso
        (chatChainTurn store thread_id msg frags StreamExit.complete nowMs nowIso).store rest

/-- The possible shapes of the chain's one-shot response as the source
distinguishes them: an object with an `output` field, a plain string, or
some other value (then serialized with `JSON.stringify`). -/
inductive ChainResponse where
  | withOutput (output : String)
  | plain (s : String)
  | other (j : Js)
deriving DecidableEq, Repr

/-- The response text extracted from the one-shot result:
`typeof response === 'object' && 'output' in response ? response.output
: typeof response === 'string' ? response : JSON.stringify(response)`. -/
def responseTextOf : ChainResponse → String
  | .withOutput o => o
  | .plain s => s
  | .other j => stringifyJs j

/-- Embedding of `MemoryChain.invoke` (the guarded variant): load the
history, prepend the transcript to the `message` input when both are
non-empty, await the chain's one-shot result (`genResult`, supplied by the
external generation collaborator: `.error` when `chain.invoke` throws), and
persist one user/assistant pair iff the extracted response text is
non-empty.  Returns the caller-visible outcome, the thread's new store
state and the put calls made. -/
def memoryChainInvoke (store : Option Checkpoint) (thread_id : String)
    (message : Option String) (restInput : Js)
    (genResult : Except String ChainResponse) (nowMs : Nat) (nowIso : String) :
    Except String ChainResponse × Option Checkpoint × List PutCall :=
  let checkpoint := store
  let historyMessages := historyOf checkpoint
  let historyText := messagesToHistoryText historyMessages
  let msgAfterHistory : Option String :=
    match message with
    | some m => if historyText ≠ "" ∧ m ≠ "" then some (historyText ++ "\n\nUser: " ++ m)
                else some m
    | none => none
  match genResult with
  | .error e => (.error e, checkpoint, [])
  | .ok response =>
    let responseText := responseTextOf response
    if responseText.length > 0 then
      let userText := match msgAfterHistory with
        | some m => if m = "" then stringifyJs restInput else m
        | none => stringifyJs restInput
      let userMessage := HumanMessage userText
      let aiMessage := AIMessage responseText
      let newMessages := historyMessages ++ [userMessage, aiMessage]
      let newCheckpoint := buildNewCheckpoint checkpoint thread_id newMessages nowMs nowIso
      let metadata := buildMetadata checkpoint
      (.ok response, some newCheckpoint, [⟨newCheckpoint, metadata, newMessages.length⟩])
    else (.ok response, checkpoint, [])

/-- The fields of the heart `Agent` relevant to schema structuring: whether
a schema is configured and the `should_use_schema` flag (initially true). -/
structure HeartAgentState where
  hasSchema : Bool
  should_use_schema : Bool
deriving DecidableEq, Repr

/-- Outcome of `Agent.invoke` as seen by the caller: either the
schema-structured value or the raw final message content. -/
inductive InvokeResult where
  | structured (s : String)
  | raw (s : String)
deriving DecidableEq, Repr

/-- Embedding of the tail of heart `Agent.invoke`: with `content` the final
message content produced by the react agent (external collaborator) and
`structureFn` the external `structure` helper, the result is structured iff
`this.schema && this.should_use_schema`. -/
def agentInvoke (st : HeartAgentState) (structureFn : String → String)
    (content : String) : InvokeResult :=
  if st.hasSchema ∧ st.should_use_schema then .structured (structureFn content)
  else .raw content

/-- The fragments heart `Agent.stream` produces from a response string:
`responseStr.split(" ")`, each word yielded as `word + " "`. -/
def heartStreamFragments (responseStr : String) : List String :=
  (jsSplitSpace responseStr).map (fun w => w ++ " ")

/-- Embedding of heart `Agent.stream`: set `should_use_schema` to false,
call `this.invoke` (whose generation part is external: `genFails` is true
when it throws), split the response into words and yield each with a
trailing space, the consumer possibly stopping after `stopAfter` fragments;
the `finally` block restores `should_use_schema := true` on every exit.
Returns the delivered fragments, whether an error escaped, and the final
agent state. -/
def agentStreamTurn (st : HeartAgentState) (structureFn : String → String)
    (content : String) (genFails : Bool) (stopAfter : Option Nat) :
    List String × Bool × HeartAgentState :=
  let st1 : HeartAgentState := { st with should_use_schema := false }
  if genFails then
    ([], true, { st1 with should_use_schema := true })
  else
    let response := agentInvoke st1 structureFn content
    let responseStr := match response with
      | .structured s => s
      | .raw s => s
    let fragments := heartStreamFragments responseStr
    let delivered := match stopAfter with
      | none => fragments
      | some k => fragments.take k
    (delivered, false, { st1 with should_use_schema := true })

theorem str_length_pos {s : String} (h : s ≠ "") : 0 < s.length := by
  cases s with
  | mk data =>
    cases data with
    | nil => exact absurd rfl h
    | cons a l => simp [String.length]

theorem str_length_eq_zero {s : String} (h : s = "") : s.length = 0 := by
  subst h; rfl

theorem jsJoin_append_singleton (sep : String) (l : List String) (x : String)
    (h : l ≠ []) : jsJoin sep (l ++ [x]) = jsJoin sep l ++ sep ++ x := by
  induction l with
  | nil => exact absurd rfl h
  | cons a l ih =>
    cases l with
    | nil => rfl
    | cons b l2 =>
      have := ih (by simp)
      simp only [List.cons_append] at this ⊢
      rw [jsJoin, jsJoin, this]
      simp [String.append_assoc]

theorem data_jsJoin_empty (l : List String) :
    (jsJoin "" l).data = (l.map String.data).flatten := by
  induction l with
  | nil => rfl
  | cons a l ih =>
    cases l with
    | nil => simp [jsJoin]
    | cons b l2 =>
      rw [jsJoin]
      rw [String.data_append, String.data_append]
      simp only [List.map_cons, List.flatten_cons] at ih ⊢
      rw [ih]
      simp

theorem splitCharAux_ne_nil (c : Char) (l : List Char) : splitCharAux c l ≠ [] := by
  cases l with
  | nil => simp [splitCharAux]
  | cons x xs =>
    rw [splitCharAux]
    split
    · simp
    · split <;> simp

theorem splitCharAux_flatten (c : Char) (l : List Char) :
    ((splitCharAux c l).map (fun p => p ++ [c])).flatten = l ++ [c] := by
  induction l with
  | nil => simp [splitCharAux]
  | cons x xs ih =>
    by_cases hx : x = c
    · subst hx
      rw [splitCharAux, if_pos rfl]
      simp only [List.map_cons, List.flatten_cons, List.nil_append]
      rw [ih]
      simp
    · rw [splitCharAux, if_neg hx]
      cases hsp : splitCharAux c xs with
      | nil => exact absurd hsp (splitCharAux_ne_nil c xs)
      | cons y ys =>
        rw [hsp] at ih
        simp only [List.map_cons, List.flatten_cons] at ih ⊢
        simp only [List.cons_append, List.append_assoc] at ih ⊢
        rw [ih]

theorem buildNewCheckpoint_v (checkpoint : Option Checkpoint) (thread_id : String)
    (newMessages : List Message) (nowMs : Nat) (nowIso : String) :
    (buildNewCheckpoint checkpoint thread_id newMessages nowMs nowIso).v
      = storeVersion checkpoint + 1 := by
  cases checkpoint <;> rfl

theorem buildNewCheckpoint_messages (checkpoint : Option Checkpoint) (thread_id : String)
    (newMessages : List Message) (nowMs : Nat) (nowIso : String) :
    (buildNewCheckpoint checkpoint thread_id newMessages nowMs nowIso).channel_values_messages
      = newMessages := rfl

theorem buildMetadata_step (checkpoint : Option Checkpoint) :
    (buildMetadata checkpoint).step = storeVersion checkpoint + 1 := by
  cases checkpoint <;> rfl

theorem chatPersistStep_of_ne (checkpoint : Option Checkpoint) (thread_id : String)
    (allMessages : List Message) (responseText : String) (nowMs : Nat) (nowIso : String)
    (h : responseText ≠ "") :
    chatPersistStep checkpoint thread_id allMessages responseText nowMs nowIso =
      (some (buildNewCheckpoint checkpoint thread_id
              (allMessages ++ [AIMessage responseText]) nowMs nowIso),
       some ⟨buildNewCheckpoint checkpoint thread_id
              (allMessages ++ [AIMessage responseText]) nowMs nowIso,
             buildMetadata checkpoint,
             (allMessages ++ [AIMessage responseText]).length⟩) := by
  rw [chatPersistStep, if_pos (str_length_pos h)]

theorem chatPersistStep_of_empty (checkpoint : Option Checkpoint) (thread_id : String)
    (allMessages : List Message) (responseText : String) (nowMs : Nat) (nowIso : String)
    (h : responseText = "") :
    chatPersistStep checkpoint thread_id allMessages responseText nowMs nowIso
      = (checkpoint, none) := by
  rw [chatPersistStep, if_neg (by simp [str_length_eq_zero h])]

theorem chatChainTurn_yielded (store0 : Option Checkpoint) (thread_id message : String)
    (frags : List String) (ex : StreamExit) (nowMs : Nat) (nowIso : String) :
    (chatChainTurn store0 thread_id message frags ex nowMs nowIso).yielded
      = deliveredChunks frags ex := rfl

theorem chatChainTurn_genInput (store0 : Option Checkpoint) (thread_id message : String)
    (frags : List String) (ex : StreamExit) (nowMs : Nat) (nowIso : String) :
    (chatChainTurn store0 thread_id message frags ex nowMs nowIso).genInput
      = messagesToHistoryText (historyOf store0 ++ [HumanMessage message])
          ++ "\n\nUser: " ++ message := rfl

theorem chatChainTurn_store_eq (store0 : Option Checkpoint) (thread_id message : String)
    (frags : List String) (ex : StreamExit) (nowMs : Nat) (nowIso : String) :
    (chatChainTurn store0 thread_id message frags ex nowMs nowIso).store
      = (chatPersistStep store0 thread_id (historyOf store0 ++ [HumanMessage message])
          (jsJoin "" (deliveredChunks frags ex)) nowMs nowIso).1 := rfl

theorem chatChainTurn_puts_eq (store0 : Option Checkpoint) (thread_id message : String)
    (frags : List String) (ex : StreamExit) (nowMs : Nat) (nowIso : String) :
    (chatChainTurn store0 thread_id message frags ex nowMs nowIso).puts
      = (chatPersistStep store0 thread_id (historyOf store0 ++ [HumanMessage message])
          (jsJoin "" (deliveredChunks frags ex)) nowMs nowIso).2.toList := rfl

theorem chatChainTurn_store_of_ne (store0 : Option Checkpoint) (thread_id message : String)
    (frags : List String) (ex : StreamExit) (nowMs : Nat) (nowIso : String)
    (h : jsJoin "" (deliveredChunks frags ex) ≠ "") :
    (chatChainTurn store0 thread_id message frags ex nowMs nowIso).store
      = some (buildNewCheckpoint store0 thread_id
          (historyOf store0 ++ [HumanMessage message,
            AIMessage (jsJoin "" (deliveredChunks frags ex))]) nowMs nowIso) := by
  rw [chatChainTurn_store_eq,
      chatPersistStep_of_ne store0 thread_id _ _ nowMs nowIso h]
  simp

theorem chatChainTurn_store_of_empty (store0 : Option Checkpoint) (thread_id message : String)
    (frags : List String) (ex : StreamExit) (nowMs : Nat) (nowIso : String)
    (h : jsJoin "" (deliveredChunks frags ex) = "") :
    (chatChainTurn store0 thread_id message frags ex nowMs nowIso).store = store0 := by
  rw [chatChainTurn_store_eq, chatPersistStep_of_empty store0 thread_id _ _ nowMs nowIso h]

theorem runTurns_version (thread_id : String) (nowMs : Nat) (nowIso : String)
    (turns : List (String × List String)) (store : Option Checkpoint)
    (h : ∀ t ∈ turns, jsJoin "" t.2 ≠ "") :
    storeVersion (runTurns thread_id nowMs nowIso store turns)
      = storeVersion store + turns.length := by
  induction turns generalizing store with
  | nil => simp [runTurns]
  | cons t rest ih =>
    obtain ⟨msg, frags⟩ := t
    rw [runTurns]
    have h1 : jsJoin "" (deliveredChunks frags StreamExit.complete) ≠ "" :=
      h (msg, frags) (by simp)
    rw [ih _ (fun t ht => h t (by simp [ht]))]
    rw [chatChainTurn_store_of_ne store thread_id msg frags StreamExit.complete nowMs nowIso h1]
    simp only [storeVersion, buildNewCheckpoint_v, List.length_cons]
    omega

theorem runTurns_messages (thread_id : String) (nowMs : Nat) (nowIso : String)
    (turns : List (String × List String)) (store : Option Checkpoint)
    (h : ∀ t ∈ turns, jsJoin "" t.2 ≠ "") :
    (historyOf (runTurns thread_id nowMs nowIso store turns)).length
      = (historyOf store).length + 2 * turns.length := by
  induction turns generalizing store with
  | nil => simp [runTurns]
  | cons t rest ih =>
    obtain ⟨msg, frags⟩ := t
    rw [runTurns]
    have h1 : jsJoin "" (deliveredChunks frags StreamExit.complete) ≠ "" :=
      h (msg, frags) (by simp)
    rw [ih _ (fun t ht => h t (by simp [ht]))]
    rw [chatChainTurn_store_of_ne store thread_id msg frags StreamExit.complete nowMs nowIso h1]
    simp only [historyOf, buildNewCheckpoint_messages, List.length_append,
      List.length_cons, List.length_nil]
    omega

theorem runTurns_messages_extend (thread_id : String) (nowMs : Nat) (nowIso : String)
    (turns : List (String × List String)) (store : Option Checkpoint) :
    ∃ suffix, historyOf (runTurns thread_id nowMs nowIso store turns)
      = historyOf store ++ suffix := by
  induction turns generalizing store with
  | nil => exact ⟨[], by simp [runTurns]⟩
  | cons t rest ih =>
    obtain ⟨msg, frags⟩ := t
    rw [runTurns]
    by_cases h1 : jsJoin "" (deliveredChunks frags StreamExit.complete) = ""
    · rw [chatChainTurn_store_of_empty store thread_id msg frags StreamExit.complete nowMs nowIso h1]
      exact ih store
    · rw [chatChainTurn_store_of_ne store thread_id msg frags StreamExit.complete nowMs nowIso h1]
      obtain ⟨suffix, hs⟩ := ih (some (buildNewCheckpoint store thread_id
        (historyOf store ++ [HumanMessage msg,
          AIMessage (jsJoin "" (deliveredChunks frags StreamExit.complete))]) nowMs nowIso))
      refine ⟨[HumanMessage msg,
        AIMessage (jsJoin "" (deliveredChunks frags StreamExit.complete))] ++ suffix, ?_⟩
      rw [hs]
      simp [historyOf, buildNewCheckpoint_messages]

/-- C1: for every streamed turn, whichever way the streaming region is
exited — the fragment sequence completes normally, the generation
collaborator throws mid-stream, or the consumer stops iterating early —
the persistence step (the finally block) runs exactly once, with the text
accumulated up to that point (the concatenation of the fragments forwarded
so far), and a mid-stream generation error is re-raised to the caller only
after the persistence step has run: the event trace contains exactly one
persistence event, carrying the accumulated text, no raise event precedes
it, and a raise event follows it exactly when the exit was a mid-stream
failure. -/
theorem claim_C1 (store0 : Option Checkpoint) (thread_id message : String)
    (frags : List String) (ex : StreamExit) (nowMs : Nat) (nowIso : String) :
    ∃ pre post,
      (chatChainTurn store0 thread_id message frags ex nowMs nowIso).events
        = pre ++ TurnEv.persistEv
            (jsJoin "" (chatChainTurn store0 thread_id message frags ex nowMs nowIso).yielded)
          :: post
      ∧ (∀ s, TurnEv.persistEv s ∉ pre)
      ∧ (∀ s, TurnEv.persistEv s ∉ post)
      ∧ TurnEv.raiseEv ∉ pre
      ∧ (TurnEv.raiseEv ∈ post ↔ ∃ k, ex = StreamExit.failed k) := by
  refine ⟨(deliveredChunks frags ex).map TurnEv.yieldEv,
    (chatPersistStep store0 thread_id (historyOf store0 ++ [HumanMessage message])
      (jsJoin "" (deliveredChunks frags ex)) nowMs nowIso).2.toList.map TurnEv.putEv
      ++ raiseTail ex,
    rfl, ?_, ?_, ?_, ?_⟩
  · intro s
    simp
  · intro s
    simp only [List.mem_append, List.mem_map]
    rintro (⟨p, _, hp⟩ | h)
    · exact absurd hp (by simp)
    · cases ex <;> simp_all [raiseTail]
  · simp
  · constructor
    · intro h
      rcases List.mem_append.mp h with h | h
      · rcases List.mem_map.mp h with ⟨p, _, hp⟩
        cases hp
      · cases ex with
        | failed k => exact ⟨k, rfl⟩
        | complete => simp [raiseTail] at h
        | abandoned k => simp [raiseTail] at h
    · rintro ⟨k, rfl⟩
      simp [raiseTail]

/-- C2: for every streamed turn whose forwarded fragments concatenate to a
non-empty text, the new checkpoint's message list extends the prior history
by the user message and an assistant message whose text is exactly the
concatenation, in order, of the fragments forwarded to the caller — no
loss, duplication or reordering — and when the consumer stops after `k`
fragments, the forwarded fragments are exactly the first `k`. -/
theorem claim_C2 (store0 : Option Checkpoint) (thread_id message : String)
    (frags : List String) (ex : StreamExit) (nowMs : Nat) (nowIso : String)
    (h : jsJoin "" (chatChainTurn store0 thread_id message frags ex nowMs nowIso).yielded ≠ "") :
    ∃ cp, (chatChainTurn store0 thread_id message frags ex nowMs nowIso).store = some cp
      ∧ cp.channel_values_messages
          = historyOf store0
            ++ [HumanMessage message,
                AIMessage (jsJoin ""
                  (chatChainTurn store0 thread_id message frags ex nowMs nowIso).yielded)]
      ∧ (∀ k, ex = StreamExit.abandoned k →
          (chatChainTurn store0 thread_id message frags ex nowMs nowIso).yielded
            = frags.take k) := by
  rw [chatChainTurn_yielded] at h ⊢
  refine ⟨buildNewCheckpoint store0 thread_id
      (historyOf store0 ++ [HumanMessage message,
        AIMessage (jsJoin "" (deliveredChunks frags ex))]) nowMs nowIso,
    chatChainTurn_store_of_ne store0 thread_id message frags ex nowMs nowIso h,
    buildNewCheckpoint_messages _ _ _ _ _, ?_⟩
  intro k hk
  subst hk
  rfl

theorem claim_C2_witness :
    jsJoin "" (chatChainTurn none "t1" "hi"
      ["one ", "two ", "three ", "four ", "five "] (StreamExit.abandoned 2) 0 "ts0").yielded ≠ ""
    ∧ ∃ cp, (chatChainTurn none "t1" "hi"
        ["one ", "two ", "three ", "four ", "five "] (StreamExit.abandoned 2) 0 "ts0").store = some cp
      ∧ cp.channel_values_messages
          = historyOf none
            ++ [HumanMessage "hi",
                AIMessage (jsJoin "" (chatChainTurn none "t1" "hi"
                  ["one ", "two ", "three ", "four ", "five "]
                  (StreamExit.abandoned 2) 0 "ts0").yielded)]
      ∧ (∀ k, StreamExit.abandoned 2 = StreamExit.abandoned k →
          (chatChainTurn none "t1" "hi"
            ["one ", "two ", "three ", "four ", "five "]
            (StreamExit.abandoned 2) 0 "ts0").yielded
            = ["one ", "two ", "three ", "four ", "five "].take k) :=
  ⟨by decide,
   claim_C2 none "t1" "hi" ["one ", "two ", "three ", "four ", "five "]
     (StreamExit.abandoned 2) 0 "ts0" (by decide)⟩

/-- C3: for every turn whose accumulated response text is empty (no
fragments, or only empty fragments), no checkpoint write occurs — the
thread's store state is unchanged and no `put` happens — and emptiness is
not surfaced as an error (an error escapes exactly when generation itself
failed); likewise `saveResponse` with empty response text leaves the store
untouched and writes nothing. -/
theorem claim_C3 :
    (∀ (store0 : Option Checkpoint) (thread_id message : String) (frags : List String)
        (ex : StreamExit) (nowMs : Nat) (nowIso : String),
      jsJoin "" (deliveredChunks frags ex) = "" →
        (chatChainTurn store0 thread_id message frags ex nowMs nowIso).store = store0
        ∧ (chatChainTurn store0 thread_id message frags ex nowMs nowIso).puts = []
        ∧ ((chatChainTurn store0 thread_id message frags ex nowMs nowIso).raised = true
            ↔ ∃ k, ex = StreamExit.failed k))
    ∧ (∀ (store : Option Checkpoint) (thread_id userInputText : String)
        (historyMessages : List Message) (nowMs : Nat) (nowIso : String),
      saveResponse store thread_id userInputText "" historyMessages nowMs nowIso
        = (store, none)) := by
  constructor
  · intro store0 thread_id message frags ex nowMs nowIso h
    refine ⟨chatChainTurn_store_of_empty store0 thread_id message frags ex nowMs nowIso h, ?_, ?_⟩
    · rw [chatChainTurn_puts_eq, chatPersistStep_of_empty store0 thread_id _ _ nowMs nowIso h]
      rfl
    · cases ex <;> simp [chatChainTurn]
  · intro store thread_id userInputText historyMessages nowMs nowIso
    simp [saveResponse]

theorem claim_C3_witness :
    (jsJoin "" (deliveredChunks [] StreamExit.complete) = ""
     ∧ ((chatChainTurn (some ⟨[HumanMessage "a"], 1, [], 1, "id0", "ts0"⟩) "t1" "hi" []
          StreamExit.complete 0 "ts1").store
            = some ⟨[HumanMessage "a"], 1, [], 1, "id0", "ts0"⟩
        ∧ (chatChainTurn (some ⟨[HumanMessage "a"], 1, [], 1, "id0", "ts0"⟩) "t1" "hi" []
            StreamExit.complete 0 "ts1").puts = []
        ∧ ((chatChainTurn (some ⟨[HumanMessage "a"], 1, [], 1, "id0", "ts0"⟩) "t1" "hi" []
              StreamExit.complete 0 "ts1").raised = true
            ↔ ∃ k, StreamExit.complete = StreamExit.failed k)))
    ∧ saveResponse none "t1" "hi" "" [] 0 "ts1" = (none, none) :=
  ⟨⟨by decide,
    claim_C3.1 (some ⟨[HumanMessage "a"], 1, [], 1, "id0", "ts0"⟩) "t1" "hi" []
      StreamExit.complete 0 "ts1" (by decide)⟩,
   claim_C3.2 none "t1" "hi" [] 0 "ts1"⟩

/-- C4: each successfully persisted non-empty turn issues exactly one
`put`, whose checkpoint carries version exactly one more than the prior
checkpoint's version (1 when no prior checkpoint exists) and whose
`metadata.step` equals that new version — this holds for the streamed turn
and for `saveResponse` — and with serialized single-writer access, after
`k` successful non-empty turns starting from an empty thread the stored
version is exactly `k`. -/
theorem claim_C4 :
    (∀ (store0 : Option Checkpoint) (thread_id message : String) (frags : List String)
        (ex : StreamExit) (nowMs : Nat) (nowIso : String),
      jsJoin "" (deliveredChunks frags ex) ≠ "" →
      ∃ p : PutCall,
        (chatChainTurn store0 thread_id message frags ex nowMs nowIso).puts = [p]
        ∧ p.checkpoint.v = storeVersion store0 + 1
        ∧ p.metadata.step = p.checkpoint.v
        ∧ (chatChainTurn store0 thread_id message frags ex nowMs nowIso).store
            = some p.checkpoint)
    ∧ (∀ (store : Option Checkpoint) (thread_id userInputText responseText : String)
        (historyMessages : List Message) (nowMs : Nat) (nowIso : String),
      responseText ≠ "" →
      ∃ p : PutCall,
        saveResponse store thread_id userInputText responseText historyMessages nowMs nowIso
          = (some p.checkpoint, some p)
        ∧ p.checkpoint.v = storeVersion store + 1
        ∧ p.metadata.step = p.checkpoint.v)
    ∧ (∀ (thread_id : String) (nowMs : Nat) (nowIso : String)
        (turns : List (String × List String)),
      (∀ t ∈ turns, jsJoin "" t.2 ≠ "") →
      storeVersion (runTurns thread_id nowMs nowIso none turns) = turns.length) := by
  refine ⟨?_, ?_, ?_⟩
  · intro store0 thread_id message frags ex nowMs nowIso h
    refine ⟨⟨buildNewCheckpoint store0 thread_id
        (historyOf store0 ++ [HumanMessage message,
          AIMessage (jsJoin "" (deliveredChunks frags ex))]) nowMs nowIso,
      buildMetadata store0,
      (historyOf store0 ++ [HumanMessage message,
        AIMessage (jsJoin "" (deliveredChunks frags ex))]).length⟩, ?_, ?_, ?_, ?_⟩
    · rw [chatChainTurn_puts_eq, chatPersistStep_of_ne store0 thread_id _ _ nowMs nowIso h]
      simp
    · exact buildNewCheckpoint_v store0 thread_id _ nowMs nowIso
    · rw [buildMetadata_step, buildNewCheckpoint_v]
    · exact chatChainTurn_store_of_ne store0 thread_id message frags ex nowMs nowIso h
  · intro store thread_id userInputText responseText historyMessages nowMs nowIso h
    refine ⟨⟨buildNewCheckpoint store thread_id
        (historyMessages ++ [HumanMessage userInputText, AIMessage responseText]) nowMs nowIso,
      buildMetadata store,
      (historyMessages ++ [HumanMessage userInputText, AIMessage responseText]).length⟩,
      ?_, ?_, ?_⟩
    · rw [saveResponse, if_neg (str_length_pos h).ne']
    · exact buildNewCheckpoint_v store thread_id _ nowMs nowIso
    · rw [buildMetadata_step, buildNewCheckpoint_v]
  · intro thread_id nowMs nowIso turns h
    rw [runTurns_version thread_id nowMs nowIso turns none h]
    simp [storeVersion]

theorem claim_C4_witness :
    (jsJoin "" (deliveredChunks ["Hi ", "there"] StreamExit.complete) ≠ ""
     ∧ ∃ p : PutCall,
        (chatChainTurn none "t1" "hello" ["Hi ", "there"] StreamExit.complete 0 "ts0").puts = [p]
        ∧ p.checkpoint.v = storeVersion none + 1
        ∧ p.metadata.step = p.checkpoint.v
        ∧ (chatChainTurn none "t1" "hello" ["Hi ", "there"] StreamExit.complete 0 "ts0").store
            = some p.checkpoint)
    ∧ (("ok" : String) ≠ ""
       ∧ ∃ p : PutCall,
          saveResponse none "t1" "hello" "ok" [] 0 "ts0" = (some p.checkpoint, some p)
          ∧ p.checkpoint.v = storeVersion none + 1
          ∧ p.metadata.step = p.checkpoint.v)
    ∧ ((∀ t ∈ [("a", ["ra"]), ("b", ["rb"])], jsJoin "" t.2 ≠ "")
       ∧ storeVersion (runTurns "t1" 0 "ts0" none [("a", ["ra"]), ("b", ["rb"])]) = 2) :=
  ⟨⟨by decide, claim_C4.1 none "t1" "hello" ["Hi ", "there"] StreamExit.complete 0 "ts0" (by decide)⟩,
   ⟨by decide, claim_C4.2.1 none "t1" "hello" "ok" [] 0 "ts0" (by decide)⟩,
   ⟨by decide, claim_C4.2.2 "t1" 0 "ts0" [("a", ["ra"]), ("b", ["rb"])] (by decide)⟩⟩

/-- C5: each successful non-empty commit appends exactly one user message
followed by one assistant message to the prior checkpoint's message list
(the prior list is kept unchanged as a prefix, nothing is edited or
removed) — both in the streamed turn and in `saveResponse` — and after `N`
successful non-empty turns on one thread with serialized access the stored
message list has length exactly `2·N`; every run of turns only ever extends
the message list. -/
theorem claim_C5 :
    (∀ (store0 : Option Checkpoint) (thread_id message : String) (frags : List String)
        (ex : StreamExit) (nowMs : Nat) (nowIso : String),
      jsJoin "" (deliveredChunks frags ex) ≠ "" →
      ∃ cp, (chatChainTurn store0 thread_id message frags ex nowMs nowIso).store = some cp
        ∧ cp.channel_values_messages
            = historyOf store0
              ++ [HumanMessage message, AIMessage (jsJoin "" (deliveredChunks frags ex))])
    ∧ (∀ (store : Option Checkpoint) (thread_id userInputText responseText : String)
        (historyMessages : List Message) (nowMs : Nat) (nowIso : String),
      responseText ≠ "" →
      ∃ cp, (saveResponse store thread_id userInputText responseText
              historyMessages nowMs nowIso).1 = some cp
        ∧ cp.channel_values_messages
            = historyMessages ++ [HumanMessage userInputText, AIMessage responseText])
    ∧ (∀ (thread_id : String) (nowMs : Nat) (nowIso : String)
        (turns : List (String × List String)),
      (∀ t ∈ turns, jsJoin "" t.2 ≠ "") →
      (historyOf (runTurns thread_id nowMs nowIso none turns)).length = 2 * turns.length)
    ∧ (∀ (thread_id : String) (nowMs : Nat) (nowIso : String)
        (store : Option Checkpoint) (turns : List (String × List String)),
      ∃ suffix, historyOf (runTurns thread_id nowMs nowIso store turns)
        = historyOf store ++ suffix) := by
  refine ⟨?_, ?_, ?_, ?_⟩
  · intro store0 thread_id message frags ex nowMs nowIso h
    exact ⟨buildNewCheckpoint store0 thread_id
        (historyOf store0 ++ [HumanMessage message,
          AIMessage (jsJoin "" (deliveredChunks frags ex))]) nowMs nowIso,
      chatChainTurn_store_of_ne store0 thread_id message frags ex nowMs nowIso h,
      buildNewCheckpoint_messages _ _ _ _ _⟩
  · intro store thread_id userInputText responseText historyMessages nowMs nowIso h
    refine ⟨buildNewCheckpoint store thread_id
        (historyMessages ++ [HumanMessage userInputText, AIMessage responseText]) nowMs nowIso,
      ?_, buildNewCheckpoint_messages _ _ _ _ _⟩
    rw [saveResponse, if_neg (str_length_pos h).ne']
  · intro thread_id nowMs nowIso turns h
    rw [runTurns_messages thread_id nowMs nowIso turns none h]
    simp [historyOf]
  · intro thread_id nowMs nowIso store turns
    exact runTurns_messages_extend thread_id nowMs nowIso turns store

theorem claim_C5_witness :
    (jsJoin "" (deliveredChunks ["Hi ", "there"] StreamExit.complete) ≠ ""
     ∧ ∃ cp, (chatChainTurn none "t1" "hello" ["Hi ", "there"] StreamExit.complete 0 "ts0").store
          = some cp
        ∧ cp.channel_values_messages
            = historyOf none
              ++ [HumanMessage "hello",
                  AIMessage (jsJoin "" (deliveredChunks ["Hi ", "there"] StreamExit.complete))])
    ∧ (("ok" : String) ≠ ""
       ∧ ∃ cp, (saveResponse none "t1" "hello" "ok" [] 0 "ts0").1 = some cp
          ∧ cp.channel_values_messages = [] ++ [HumanMessage "hello", AIMessage "ok"])
    ∧ ((∀ t ∈ [("a", ["ra"]), ("b", ["rb"])], jsJoin "" t.2 ≠ "")
       ∧ (historyOf (runTurns "t1" 0 "ts0" none [("a", ["ra"]), ("b", ["rb"])])).length = 2 * 2)
    ∧ (∃ suffix, historyOf (runTurns "t1" 0 "ts0" none [("a", ["ra"])])
        = historyOf none ++ suffix) :=
  ⟨⟨by decide, claim_C5.1 none "t1" "hello" ["Hi ", "there"] StreamExit.complete 0 "ts0" (by decide)⟩,
   ⟨by decide, claim_C5.2.1 none "t1" "hello" "ok" [] 0 "ts0" (by decide)⟩,
   ⟨by decide, claim_C5.2.2.1 "t1" 0 "ts0" [("a", ["ra"]), ("b", ["rb"])] (by decide)⟩,
   claim_C5.2.2.2 "t1" 0 "ts0" none [("a", ["ra"])]⟩

/-- The input assembly stated by the spec for a streamed turn: the
transcript of the already persisted prior history, followed by the new
user turn once. -/
def specAssembledInput (store : Option Checkpoint) (message : String) : String :=
  messagesToHistoryText (historyOf store) ++ "\n\nUser: " ++ message

/-- Number of positions at which `needle` occurs as a substring. -/
def countOccAux (needle : List Char) : List Char → Nat
  | [] => 0
  | x :: xs => (if needle.isPrefixOf (x :: xs) then 1 else 0) + countOccAux needle xs

/-- Number of occurrences of a substring. -/
def occurrencesOf (needle hay : String) : Nat :=
  countOccAux needle.data hay.data

/-- C6 fails on the code: on an empty thread with user input `"hi"`, the
text handed to the generation collaborator is
`"User: hi\n\nUser: hi"` — the new user message appears twice (it is
rendered into the transcript, which is built over the history *plus* the
new user message, and then appended once more), not once as claimed. -/
theorem claim_C6_counterexample :
    (chatChainTurn none "t1" "hi" ["ok"] StreamExit.complete 0 "ts0").genInput
      ≠ specAssembledInput none "hi"
    ∧ occurrencesOf "User: hi"
        ((chatChainTurn none "t1" "hi" ["ok"] StreamExit.complete 0 "ts0").genInput) = 2 := by
  constructor
  · decide
  · decide

/-- C6 (amended): the input assembled for the generation collaborator is
the transcript rendered over the prior history *plus* the new user
message, followed by the new user turn appended once more — so the prior
transcript is included (the assembled input extends it), but the new user
message appears twice rather than once. -/
theorem claim_C6 (store0 : Option Checkpoint) (thread_id message : String)
    (frags : List String) (ex : StreamExit) (nowMs : Nat) (nowIso : String) :
    (chatChainTurn store0 thread_id message frags ex nowMs nowIso).genInput
      = messagesToHistoryText (historyOf store0 ++ [HumanMessage message])
        ++ "\n\nUser: " ++ message
    ∧ ∃ t, (chatChainTurn store0 thread_id message frags ex nowMs nowIso).genInput
        = messagesToHistoryText (historyOf store0) ++ t := by
  refine ⟨chatChainTurn_genInput store0 thread_id message frags ex nowMs nowIso, ?_⟩
  rw [chatChainTurn_genInput]
  by_cases hh : historyOf store0 = []
  · refine ⟨messagesToHistoryText [HumanMessage message] ++ "\n\nUser: " ++ message, ?_⟩
    rw [hh]
    rfl
  · have hmap : (historyOf store0).map renderMessage ≠ [] := by
      simpa using hh
    refine ⟨"\n\n" ++ renderMessage (HumanMessage message) ++ ("\n\nUser: " ++ message), ?_⟩
    rw [messagesToHistoryText, List.map_append]
    simp only [List.map_cons, List.map_nil]
    rw [jsJoin_append_singleton _ _ _ hmap]
    rw [messagesToHistoryText]
    simp [String.append_assoc]

theorem jsJoin_heartStreamFragments (s : String) :
    jsJoin "" (heartStreamFragments s) = s ++ " " := by
  apply String.ext
  rw [String.data_append, data_jsJoin_empty, heartStreamFragments, jsSplitSpace,
      List.map_map, List.map_map]
  have hfun : ((String.data ∘ fun w => w ++ " ") ∘ String.mk)
      = fun p : List Char => p ++ [' '] := by
    funext p
    show (String.mk p ++ " ").data = p ++ [' ']
    rw [String.data_append]
  rw [hfun, splitCharAux_flatten]

/-- C7 fails on the code: the stream of the heart agent yields every word
with a trailing space, so concatenating a fully iterated stream of an
agent without a schema, whose invoke on the same input returns
`"hello world"`, gives `"hello world "` — not the invoke result itself. -/
theorem claim_C7_counterexample :
    jsJoin "" (agentStreamTurn ⟨false, true⟩ (fun s => s) "hello world" false none).1
      ≠ "hello world"
    ∧ agentInvoke ⟨false, true⟩ (fun s => s) "hello world" = InvokeResult.raw "hello world" := by
  constructor
  · decide
  · decide

/-- C7 (amended): iterating the heart agent's stream to completion and
concatenating all yielded fragments produces the response text of the
underlying one-shot invoke (taken with schema structuring off, as the
stream does) followed by exactly one trailing space — a word-by-word
decomposition in which every word, the last included, carries an appended
separator space. -/
theorem claim_C7 (st : HeartAgentState) (structureFn : String → String) (content : String) :
    jsJoin "" (agentStreamTurn st structureFn content false none).1 = content ++ " " := by
  have h1 : agentInvoke { st with should_use_schema := false } structureFn content
      = InvokeResult.raw content := by
    rw [agentInvoke, if_neg (by simp)]
  simp only [agentStreamTurn, Bool.false_eq_true, if_false, h1]
  exact jsJoin_heartStreamFragments content

/-- Role label as worded by the spec: `user → "User"`,
`assistant → "Assistant"`, anything else → `"System"`. -/
def specRoleLabel : Role → String
  | .human => "User"
  | .ai => "Assistant"
  | .system => "System"

/-- Transcript as worded by the spec: every message rendered as
`"<RoleLabel>: <content>"` (non-string content serialized to text), the
rendered messages joined by a blank line. -/
def specTranscript (messages : List Message) : String :=
  jsJoin "\n\n" (messages.map (fun m => specRoleLabel m.role ++ ": " ++ contentText m.content))

/-- C8: the transcript the code builds renders every message in order as
`"<RoleLabel>: <content>"` with the role mapping user/assistant/other →
User/Assistant/System, joins the rendered messages with a blank line, and
serializes non-string content with `JSON.stringify` instead of leaving an
opaque object; the empty message list yields the empty transcript. -/
theorem claim_C8 :
    (∀ messages : List Message, messagesToHistoryText messages = specTranscript messages)
    ∧ messagesToHistoryText [] = ""
    ∧ (∀ j : Js, contentText (MsgContent.complex j) = stringifyJs j) := by
  refine ⟨?_, rfl, fun j => rfl⟩
  intro messages
  rw [messagesToHistoryText, specTranscript]
  congr 1
  refine List.map_congr_left (fun m _ => ?_)
  obtain ⟨role, content⟩ := m
  cases role <;> rfl

/-- C9: on the one-shot invoke path the caller either receives the chain's
full result (the returned value is exactly the generation collaborator's
response, no partial text) or the generation error itself; when generation
fails, the error propagates and no checkpoint is written — the thread's
store state is unchanged and no `put` call happens. -/
theorem claim_C9 :
    (∀ (store : Option Checkpoint) (thread_id : String) (message : Option String)
        (restInput : Js) (e : String) (nowMs : Nat) (nowIso : String),
      memoryChainInvoke store thread_id message restInput (Except.error e) nowMs nowIso
        = (Except.error e, store, []))
    ∧ (∀ (store : Option Checkpoint) (thread_id : String) (message : Option String)
        (restInput : Js) (response : ChainResponse) (nowMs : Nat) (nowIso : String),
      (memoryChainInvoke store thread_id message restInput
          (Except.ok response) nowMs nowIso).1 = Except.ok response) := by
  constructor
  · intro store thread_id message restInput e nowMs nowIso
    rfl
  · intro store thread_id message restInput response nowMs nowIso
    simp only [memoryChainInvoke]
    split <;> rfl

/-- C10: the streaming path of the heart agent disables schema structuring
for its own duration — the delivered fragments are computed from the raw
invoke content, independently of whether a schema is configured and of the
structuring function — and the finally block restores the flag on every
exit path (generation failure, full consumption, or early abandonment), so
a subsequent one-shot invoke on the same agent with a schema configured
again returns the schema-structured result. -/
theorem claim_C10 :
    (∀ (st : HeartAgentState) (structureFn : String → String) (content : String)
        (genFails : Bool) (stopAfter : Option Nat),
      (agentStreamTurn st structureFn content genFails stopAfter).2.2.should_use_schema = true
      ∧ (agentStreamTurn st structureFn content genFails stopAfter).2.2.hasSchema = st.hasSchema
      ∧ (agentStreamTurn st structureFn content genFails stopAfter).1
          = (agentStreamTurn ⟨false, st.should_use_schema⟩ (fun s => s)
              content genFails stopAfter).1
      ∧ (genFails = false → stopAfter = none →
          (agentStreamTurn st structureFn content genFails stopAfter).1
            = heartStreamFragments content))
    ∧ (∀ (st : HeartAgentState) (structureFn : String → String) (content : String)
        (genFails : Bool) (stopAfter : Option Nat)
        (structureFn2 : String → String) (content2 : String),
      st.hasSchema = true →
      agentInvoke (agentStreamTurn st structureFn content genFails stopAfter).2.2
          structureFn2 content2
        = InvokeResult.structured (structureFn2 content2)) := by
  constructor
  · intro st structureFn content genFails stopAfter
    refine ⟨?_, ?_, ?_, ?_⟩
    · cases genFails <;> rfl
    · cases genFails <;> rfl
    · cases genFails <;> simp [agentStreamTurn, agentInvoke]
    · rintro rfl rfl
      simp [agentStreamTurn, agentInvoke]
  · intro st structureFn content genFails stopAfter structureFn2 content2 hs
    have hfin : (agentStreamTurn st structureFn content genFails stopAfter).2.2
        = ⟨st.hasSchema, true⟩ := by
      cases genFails <;> rfl
    rw [hfin, agentInvoke, if_pos (by simp [hs])]

theorem claim_C10_witness :
    ((agentStreamTurn ⟨true, true⟩ (fun s => s ++ "!") "hello world" false none).2.2.should_use_schema = true
     ∧ (agentStreamTurn ⟨true, true⟩ (fun s => s ++ "!") "hello world" false none).2.2.hasSchema
        = (⟨true, true⟩ : HeartAgentState).hasSchema
     ∧ (agentStreamTurn ⟨true, true⟩ (fun s => s ++ "!") "hello world" false none).1
        = (agentStreamTurn ⟨false, (⟨true, true⟩ : HeartAgentState).should_use_schema⟩
            (fun s => s) "hello world" false none).1
     ∧ (false = false → (none : Option Nat) = none →
        (agentStreamTurn ⟨true, true⟩ (fun s => s ++ "!") "hello world" false none).1
          = heartStreamFragments "hello world"))
    ∧ ((⟨true, true⟩ : HeartAgentState).hasSchema = true
       ∧ agentInvoke (agentStreamTurn ⟨true, true⟩ (fun s => s ++ "!") "hello world"
            false none).2.2 (fun s => s ++ "?") "again"
          = InvokeResult.structured ((fun s => s ++ "?") "again")) :=
  ⟨claim_C10.1 ⟨true, true⟩ (fun s => s ++ "!") "hello world" false none,
   ⟨rfl, claim_C10.2 ⟨true, true⟩ (fun s => s ++ "!") "hello world" false none
      (fun s => s ++ "?") "again" rfl⟩⟩
